import Mathlib

/-!
Shallow embedding of the Hailo-Web object-detection pipeline, from the sources
`client_object_detection.py`, `object_detection_mod.py` and `server.py`.

Conventions used throughout:
* queues are modelled as FIFO lists (head = next item popped, `put` appends at the back);
* a queue item is `Option σ`, with `none` standing for the Python `None` sentinel;
* external per-frame utilities (`utils.preprocess`, `extract_detections`,
  `draw_detections`, the accelerator inference call) are abstract function parameters —
  the claims under study are about batching, ordering, sentinel flow, error handling and
  sink numbering, none of which depends on their numeric content;
* wall-clock times are rationals (`time.time()` values);
* functions imported from the external `utils` module (which is not among this
  repository's source files) are modelled from the spec where needed and say so in their
  doc comment.
-/

namespace HailoWeb

variable {α β ρ δ φ σ : Type}

/-! ### Batching (claims C1, C2) -/

/-- Modelled from the spec: `divide_list_to_batches` is imported from the external `utils`
module and is not among this repository's source files.  Spec §8: "exactly `floor(N/B)`
batches are submitted; the final `N mod B` frames are never processed (documented drop
policy)" — batch `i` is the slice `images[B*i : B*i + B]`, for `i < N / B`. -/
def divide_list_to_batches (images : List α) (batch_size : Nat) : List (List α) :=
  (List.range (images.length / batch_size)).map
    (fun i => (images.drop (batch_size * i)).take batch_size)

/-- Source `preprocess_images` (client_object_detection.py lines 140-154, identical in
object_detection_mod.py lines 132-146): for each batch from `divide_list_to_batches`,
put `([image for image in batch], [utils.preprocess(image, w, h) for image in batch])`
on the input queue.  The result is the ordered sequence of items enqueued; `pre` stands
for `utils.preprocess(·, width, height)`. -/
def preprocess_images (pre : α → β) (images : List α) (batch_size : Nat) :
    List (List α × List β) :=
  (divide_list_to_batches images batch_size).map
    (fun batch => (batch.map (fun image => image), batch.map (fun image => pre image)))

/-- The loop of `preprocess_from_cap` (client_object_detection.py lines 111-137, identical
in object_detection_mod.py lines 103-129), with the capture read sequence made explicit:
`source` is the remaining frames `cap.read()` will deliver before returning `ret = False`;
`frames`/`processed_frames` are the accumulators.  Each time the accumulator reaches
`batch_size` the pair is enqueued and both accumulators reset; frames left in the
accumulator when the source ends are dropped with the loop. -/
def preprocessFromCapAux (pre : α → β) (batch_size : Nat) :
    List α → List α → List β → List (List α × List β)
  | [], _, _ => []
  | f :: rest, frames, processed_frames =>
      if (frames ++ [f]).length = batch_size then
        (frames ++ [f], processed_frames ++ [pre f]) ::
          preprocessFromCapAux pre batch_size rest [] []
      else
        preprocessFromCapAux pre batch_size rest (frames ++ [f]) (processed_frames ++ [pre f])

/-- Source `preprocess_from_cap` (client_object_detection.py lines 111-137): the ordered sequence
of `(frames, processed_frames)` items enqueued for a finite capture source. -/
def preprocess_from_cap (pre : α → β) (batch_size : Nat) (source : List α) :
    List (List α × List β) :=
  preprocessFromCapAux pre batch_size source [] []

/-- Source `preprocess` (client_object_detection.py lines 83-109, identical in
object_detection_mod.py lines 75-101): select the images or the capture path, then
`input_queue.put(None)` — the full input-queue trace, sentinel included. -/
def preprocessTrace (batches : List σ) : List (Option σ) :=
  batches.map some ++ [none]

/-! ### Pipeline ordering (claim C1)

The three stages run as threads communicating only through the two FIFO queues.  The
state records what the preprocessor has not yet pushed, the two queue contents, and what
the postprocessor has rendered; a step is one stage acting, in any interleaving. -/

/-- Pipeline state: batches not yet pushed by the preprocessor, the FIFO input and output
queues (head = next pop), and the frames rendered by the postprocessor, in order. -/
structure PipeState (α β ρ δ : Type) where
  pending : List (List α × List β)
  inQ : List (List α × List β)
  outQ : List (List α × ρ)
  rendered : List δ

/-- Initial pipeline state: nothing enqueued, nothing rendered. -/
def PipeState.init (batches : List (List α × List β)) : PipeState α β ρ δ :=
  ⟨batches, [], [], []⟩

/-- One stage acts:
* `enqueue` — the preprocessor puts its next batch at the back of the input queue
  (client_object_detection.py lines 152-154);
* `dispatch` — the engine pops the front of the input queue and delivers
  `(originals, inferF preprocessed)` at the back of the output queue.  Modelled from the
  spec (§4.3): `HailoAsyncInference` lives in the external `utils` module, and
  "completions are delivered, in FIFO submission order, as `(original_batch, raw_outputs)`
  pairs onto the output queue";
* `consume` — the postprocessor pops the front of the output queue and renders
  (client_object_detection.py lines 169-197; object_detection_mod.py lines 167-187).
`renderF` stands for `draw_detections(extract_detections(raw), originals)`. -/
inductive PipeStep (inferF : List β → ρ) (renderF : List α → ρ → δ) :
    PipeState α β ρ δ → PipeState α β ρ δ → Prop
  | enqueue (s : PipeState α β ρ δ) (b : List α × List β) (rest : List (List α × List β))
      (h : s.pending = b :: rest) :
      PipeStep inferF renderF s ⟨rest, s.inQ ++ [b], s.outQ, s.rendered⟩
  | dispatch (s : PipeState α β ρ δ) (b : List α × List β) (rest : List (List α × List β))
      (h : s.inQ = b :: rest) :
      PipeStep inferF renderF s ⟨s.pending, rest, s.outQ ++ [(b.1, inferF b.2)], s.rendered⟩
  | consume (s : PipeState α β ρ δ) (r : List α × ρ) (rest : List (List α × ρ))
      (h : s.outQ = r :: rest) :
      PipeStep inferF renderF s ⟨s.pending, s.inQ, rest, s.rendered ++ [renderF r.1 r.2]⟩

/-- The full render trace a state is committed to: what is already rendered, then what the
output queue, the input queue and the pending list will contribute, in FIFO order. -/
def PipeState.trace (inferF : List β → ρ) (renderF : List α → ρ → δ)
    (s : PipeState α β ρ δ) : List δ :=
  s.rendered ++ s.outQ.map (fun r => renderF r.1 r.2)
    ++ s.inQ.map (fun b => renderF b.1 (inferF b.2))
    ++ s.pending.map (fun b => renderF b.1 (inferF b.2))

/-! ### Queues (claim C3) -/

/-- A CPython `queue.Queue`: the `maxsize` passed to the constructor plus the held items
(head = next pop).  CPython treats `maxsize <= 0` as infinite capacity. -/
structure PyQueue (σ : Type) where
  maxsize : Int
  items : List σ

/-- Python `Queue.qsize()`. -/
def PyQueue.qsize (q : PyQueue σ) : Nat := q.items.length

/-- CPython `Queue.put(item, block=True, timeout=None)` blocks exactly while
`0 < maxsize` and `maxsize <= _qsize()` (CPython Lib/queue.py). -/
def PyQueue.putBlocks (q : PyQueue σ) : Prop :=
  0 < q.maxsize ∧ q.maxsize ≤ (q.qsize : Int)

/-- The state after a (non-blocking) `put`: item appended at the back. -/
def PyQueue.put (q : PyQueue σ) (x : σ) : PyQueue σ := ⟨q.maxsize, q.items ++ [x]⟩

/-- Construction `input_queue = queue.Queue()` (client_object_detection.py line 237,
object_detection_mod.py line 240): the pipeline input queue is constructed with the
default `maxsize = 0`. -/
def pipelineInputQueue (σ : Type) : PyQueue σ := ⟨0, []⟩

/-- Construction `output_queue = queue.Queue()` (client_object_detection.py line 238,
object_detection_mod.py line 241): likewise `maxsize = 0`. -/
def pipelineOutputQueue (σ : Type) : PyQueue σ := ⟨0, []⟩

/-- Construction `output_queue = queue.Queue(maxsize=10)` (object_detection_mod.py line 17): the
module-level Flask streaming queue — the only queue in the sources with a positive
capacity; it is not the queue `infer` builds the pipeline on. -/
def flaskModuleQueue (σ : Type) : PyQueue σ := ⟨10, []⟩

/-- Repetition: `n` successive producer puts with no consumer running. -/
def PyQueue.putN (q : PyQueue σ) (x : σ) : Nat → PyQueue σ
  | 0 => q
  | n + 1 => (q.putN x n).put x

/-! ### Sentinel flow (claim C4) -/

/-- Modelled from the spec (§4.3): the engine loop of `HailoAsyncInference.run` (external
`utils` module, not among this repository's source files) "drives engine-internal dispatch
until its input queue yields the Sentinel": each batch popped before the sentinel is
submitted and its completion delivered in FIFO order.  Result: the non-sentinel values the
engine puts on the output queue. -/
def engineConsume (inferF : σ → ρ) : List (Option σ) → List ρ
  | [] => []
  | none :: _ => []
  | some b :: rest => inferF b :: engineConsume inferF rest

/-- Modelled from the spec (§4.3): everything `run()` puts on the output queue.  The flag
`pushesSentinel` encodes the spec sentence under test — "then the engine pushes its own
Sentinel downstream and returns" — so the source orchestration can be compared against
both readings of the external engine. -/
def runOutputs (inferF : σ → ρ) (pushesSentinel : Bool) (inTrace : List (Option σ)) :
    List (Option ρ) :=
  (engineConsume inferF inTrace).map some ++ (if pushesSentinel then [none] else [])

/-- The orchestration of `infer` (client_object_detection.py lines 254-261,
object_detection_mod.py lines 257-264): the preprocess thread produces
`preprocessTrace batches` on the input queue; `hailo_inference.run()` consumes it; after
`run()` returns and the preprocess thread is joined, `infer` itself executes
`output_queue.put(None)`.  Result: the ordered sequence of items that reach the output
queue in one full run. -/
def inferOutputTrace (inferF : σ → ρ) (runPushesSentinel : Bool) (batches : List σ) :
    List (Option ρ) :=
  runOutputs inferF runPushesSentinel (preprocessTrace batches) ++ [none]

/-- Number of sentinels in a queue trace. -/
def sentinelCount (trace : List (Option σ)) : Nat :=
  trace.countP (fun x => x.isNone)

/-- What a sentinel-terminated consumer loop (`while True: x = q.get(); if x is None:
break`) consumes from a queue trace: the items strictly before the first sentinel. -/
def consumedItems : List (Option σ) → List σ
  | [] => []
  | none :: _ => []
  | some x :: rest => x :: consumedItems rest

/-- Whether such a loop terminates on the trace: it does exactly when a sentinel is
present; on a sentinel-free trace it blocks on `get()` forever. -/
def reachesSentinel : List (Option σ) → Bool
  | [] => false
  | none :: _ => true
  | some _ :: rest => reachesSentinel rest

/-! ### Client postprocess relay loop (claims C5, C7) -/

/-- Per-item I/O behaviour of one client postprocess iteration
(client_object_detection.py lines 194-197): whether `cv2.imencode` raises, the success
flag it returns (bound to `ret` and never examined by the source), whether
`client_socket.sendto` raises, and the datagram payload on success. -/
structure RelayItem where
  encodeRaises : Bool
  encodeRet : Bool
  sendRaises : Bool
  payload : Nat

/-- One iteration of the relay body: `imencode`, `pickle.dumps`, `sendto`, in sequence,
with no try/except around them; the `ret` flag is bound and never tested, so an encode
failure signalled by `ret = False` still pickles and sends the (empty) buffer. -/
def relayBody (it : RelayItem) : Except String (List Nat) :=
  if it.encodeRaises then Except.error ("cv2.error")
  else if it.sendRaises then Except.error ("OSError")
  else Except.ok [it.payload]

/-- Outcome of the client postprocess consumer loop: datagrams sent, log lines emitted by
the loop, and the exception escaping it uncaught (killing the thread), if any. -/
structure LoopResult where
  sent : List Nat
  logs : List String
  uncaught : Option String
  deriving DecidableEq, Repr

/-- The consumer loop of the client `postprocess` (client_object_detection.py lines
169-199) over an output-queue trace: pop; exit on the sentinel; otherwise run the body.
The body contains no logging call and no exception handler, so a raising iteration ends
the loop with the exception escaping and every later item unprocessed. -/
def clientPostprocessLoop : List (Option RelayItem) → LoopResult
  | [] => ⟨[], [], none⟩
  | none :: _ => ⟨[], [], none⟩
  | some it :: rest =>
      match relayBody it with
      | Except.error e => ⟨[], [], some e⟩
      | Except.ok ds =>
          let r := clientPostprocessLoop rest
          ⟨ds ++ r.sent, r.logs, r.uncaught⟩

/-- The FPS recurrence of the client `postprocess` (client_object_detection.py lines
165-179): `prev_time` starts at `0`; per consumed item, `fps = 1 / (curr_time -
prev_time)` and `prev_time = curr_time`.  `times` are the wall-clock `time.time()` values
at which the items are consumed; the result lists the `fps` value computed for each
consumed item, in order. -/
def fpsValuesAux (prev : ℚ) : List ℚ → List ℚ
  | [] => []
  | t :: rest => (t - prev)⁻¹ :: fpsValuesAux t rest

/-- The FPS values of a whole run, seeded with `prev_time = 0`. -/
def fpsValues (times : List ℚ) : List ℚ := fpsValuesAux 0 times

/-- The integer rendered in the `FPS:` overlay: `int(fps)` (line 191); for the positive
values produced by increasing times, Python `int` truncation is the floor. -/
def fpsDisplayed (times : List ℚ) : List Int :=
  (fpsValues times).map (fun q => ⌊q⌋)

/-! ### Relay receiver (claim C6) -/

/-- A datagram arriving at the relay receiver: either its payload deserializes
(`pickle.loads`) and decodes (`cv2.imdecode`) to a frame, or one of the two raises. -/
inductive RelayDatagram (φ : Type)
  | ok (frame : φ)
  | bad (errMsg : String)

/-- Source `receive_frames` (server.py lines 33-42) over the arriving datagram sequence: the loop
body is wrapped in `try: ... except Exception as e: print(...); break`.  Result: the
successive values written to `latest_frame`, the error lines printed, and whether the loop
exited (as opposed to still blocking on the next `recvfrom`). -/
def receive_frames : List (RelayDatagram φ) → List φ × List String × Bool
  | [] => ([], [], false)
  | RelayDatagram.ok f :: rest =>
      let r := receive_frames rest
      (f :: r.1, r.2.1, r.2.2)
  | RelayDatagram.bad e :: _ =>
      ([], ["Error receiving frame: " ++ e], true)

/-- server.py lines 26-28: the receiver socket is created and bound with no `settimeout`
call — `recvfrom` blocks indefinitely; no timeout path exists in the receive loop. -/
def serverSocketTimeout : Option ℚ := none

/-! ### Disk sink (claim C8) -/

/-- Python `ord('q')` (object_detection_mod.py line 191). -/
def ordQ : Int := 113

/-- Call `cv2.waitKey(1)` in disk-sink mode, where no window was ever created: returns `-1`. -/
def headlessWaitKey : Int := -1

/-- Python `k & 0xFF` for an arbitrary int equals the Euclidean `k mod 256`. -/
def pyAnd255 (k : Int) : Int := k.emod 256

/-- The disk-sink consumer loop of `postprocess` (object_detection_mod.py lines 157-198,
`cap is None`): pop results until the sentinel; render; `cv2.imwrite` to
`output/output_<image_id>.png`, `image_id` starting at 0 and incremented once per item
(no zero-padding, `imwrite` overwrites an existing file); then poll `waitKey` for the
quit key.  `render frame res` stands for
`draw_detections(extract_detections(res), frame)` after the pre-4.19 single-element
unwrap.  Result: the `(filename, image)` writes, in order. -/
def diskWrites (render : φ → ρ → φ) : List (Option (φ × ρ)) → Nat → List (String × φ)
  | [], _ => []
  | none :: _, _ => []
  | some (frame, res) :: rest, image_id =>
      ("output_" ++ toString image_id ++ ".png", render frame res) ::
        (if pyAnd255 headlessWaitKey = ordQ then []
         else diskWrites render rest (image_id + 1))

/-- A full disk-sink postprocess run over the delivered results followed by the
sentinel. -/
def mod_postprocess_disk (render : φ → ρ → φ) (results : List (φ × ρ)) :
    List (String × φ) :=
  diskWrites render (preprocessTrace results) 0

/-! ### Entry points and interrupts (claim C9) -/

/-- A Python exception escaping `infer`. -/
inductive PyExn
  | keyboardInterrupt
  | otherError (msg : String)
  deriving DecidableEq, Repr

/-- Outcome of a top-level script: process exit status, whether `cv2.destroyAllWindows`
ran on the way out, and the exception escaping `main` uncaught, if any.  CPython prints a
traceback and exits with status 1 on an unhandled exception. -/
structure MainOutcome where
  exitCode : Nat
  windowsDestroyed : Bool
  uncaught : Option PyExn
  deriving DecidableEq, Repr

/-- Source `main` of object_detection_mod.py (lines 273-285): `infer` runs inside
`try: ... except KeyboardInterrupt:` which logs a warning, calls
`cv2.destroyAllWindows()` and `sys.exit(0)`; on the normal path `infer` itself releases
the capture and destroys all windows (lines 266-268) and the script exits 0.  `inferRun`
is the exception `infer` raises, if any. -/
def mod_main (inferRun : Option PyExn) : MainOutcome :=
  match inferRun with
  | none => ⟨0, true, none⟩
  | some PyExn.keyboardInterrupt => ⟨0, true, none⟩
  | some e => ⟨1, false, some e⟩

/-- Source `main` of client_object_detection.py (lines 266-274): it calls
`infer(args.input, args.net, args.labels, args.batch_size)` with no try/except of any
kind, so any exception — a `KeyboardInterrupt` included — escapes uncaught with no
cleanup code run on that path. -/
def client_main (inferRun : Option PyExn) : MainOutcome :=
  match inferRun with
  | none => ⟨0, false, none⟩
  | some e => ⟨1, false, some e⟩

/-! ### The `save_stream_output` flag (claim C10) -/

/-- The five CLI arguments both scripts parse (client_object_detection.py lines 36-80,
object_detection_mod.py lines 28-72). -/
structure Args where
  net : String
  input : String
  batch_size : Nat
  labels : String
  save_stream_output : Bool

/-- Source `postprocess` of object_detection_mod.py (line 148) receives `save_stream_output` as
its third parameter, but the body (lines 157-198) never reads it: the disk-sink writes
are those of `mod_postprocess_disk`, whatever the flag. -/
def mod_postprocess (save_stream_output : Bool) (render : φ → ρ → φ)
    (results : List (φ × ρ)) : List (String × φ) :=
  mod_postprocess_disk render results

/-- End-to-end observable run of object_detection_mod.py on a finite image input in
disk-sink mode: `main` threads `args.save_stream_output` through `infer` (line 281) to
`postprocess` (line 254); batches come from `preprocess_images`, engine completions
arrive in FIFO order (§4.3 model), and `postprocess` writes the numbered files. -/
def mod_run (pre : α → β) (inferF : List β → ρ) (render : List α → ρ → List α)
    (images : List α) (args : Args) : List (String × List α) :=
  mod_postprocess args.save_stream_output render
    ((preprocess_images pre images args.batch_size).map (fun b => (b.1, inferF b.2)))

/-- Source `main` of client_object_detection.py (line 274) calls
`infer(args.input, args.net, args.labels, args.batch_size)`: the entire run is a function
of these four values — `args.save_stream_output` is parsed (lines 66-70) and then appears
nowhere else in the script. -/
def client_main_call (args : Args) : String × String × String × Nat :=
  (args.input, args.net, args.labels, args.batch_size)

/-! ## Helper lemmas -/

theorem divide_of_lt (batch_size : Nat) (xs : List α) (h : xs.length < batch_size) :
    divide_list_to_batches xs batch_size = [] := by
  unfold divide_list_to_batches
  rw [Nat.div_eq_of_lt h]
  rfl

theorem divide_cons (B : Nat) (hB : 0 < B) (c xs : List α) (hc : c.length = B) :
    divide_list_to_batches (c ++ xs) B = c :: divide_list_to_batches xs B := by
  unfold divide_list_to_batches
  have hlen : (c ++ xs).length = xs.length + B := by
    rw [List.length_append, hc]; omega
  rw [hlen, Nat.add_div_right _ hB, List.range_succ_eq_map, List.map_cons, List.map_map]
  congr 1
  · rw [Nat.mul_zero, List.drop_zero, List.take_left' hc]
  · apply List.map_congr_left
    intro i _
    show ((c ++ xs).drop (B * (i + 1))).take B = (xs.drop (B * i)).take B
    have : (c ++ xs).drop (B * (i + 1)) = xs.drop (B * i) := by
      rw [Nat.mul_succ, Nat.add_comm, ← List.drop_drop, List.drop_left' hc]
    rw [this]

theorem divide_length (batch_size : Nat) (xs : List α) :
    (divide_list_to_batches xs batch_size).length = xs.length / batch_size := by
  simp [divide_list_to_batches]

theorem divide_mem_length (B : Nat) (xs : List α) (b : List α)
    (hb : b ∈ divide_list_to_batches xs B) : b.length = B := by
  simp only [divide_list_to_batches, List.mem_map, List.mem_range] at hb
  obtain ⟨i, hi, rfl⟩ := hb
  rw [List.length_take, List.length_drop]
  have h2 : B * (i + 1) ≤ B * (xs.length / B) := Nat.mul_le_mul_left B hi
  have h3 : xs.length / B * B ≤ xs.length := Nat.div_mul_le_self xs.length B
  rw [Nat.mul_succ] at h2
  rw [Nat.mul_comm] at h3
  omega

theorem divide_join_aux (B : Nat) (xs : List α) :
    ∀ n, B * n ≤ xs.length →
      ((List.range n).map (fun i => (xs.drop (B * i)).take B)).flatten = xs.take (B * n) := by
  intro n
  induction n with
  | zero => intro _; simp
  | succ n ih =>
      intro h
      have hn : B * n ≤ xs.length := by rw [Nat.mul_succ] at h; omega
      rw [List.range_succ, List.map_append, List.flatten_append, ih hn]
      simp only [List.map_cons, List.map_nil, List.flatten_cons, List.flatten_nil,
        List.append_nil]
      rw [← List.take_add, Nat.mul_succ]

theorem divide_flatten (B : Nat) (xs : List α) :
    (divide_list_to_batches xs B).flatten = xs.take (B * (xs.length / B)) := by
  unfold divide_list_to_batches
  apply divide_join_aux
  rw [Nat.mul_comm]
  exact Nat.div_mul_le_self xs.length B

theorem preprocessFromCapAux_eq (pre : α → β) (B : Nat) :
    ∀ (source acc : List α), acc.length < B →
      preprocessFromCapAux pre B source acc (acc.map pre) =
        (divide_list_to_batches (acc ++ source) B).map (fun b => (b, b.map pre)) := by
  intro source
  induction source with
  | nil =>
      intro acc h
      rw [List.append_nil, divide_of_lt B acc h]
      rfl
  | cons f rest ih =>
      intro acc h
      have hB : 0 < B := Nat.lt_of_le_of_lt (Nat.zero_le _) h
      have hmap : acc.map pre ++ [pre f] = (acc ++ [f]).map pre := by
        rw [List.map_append, List.map_cons, List.map_nil]
      by_cases h1 : (acc ++ [f]).length = B
      · rw [preprocessFromCapAux, if_pos h1]
        have hrec := ih [] hB
        rw [List.nil_append] at hrec
        rw [List.map_nil] at hrec
        rw [hrec, hmap]
        have hsplit : acc ++ f :: rest = (acc ++ [f]) ++ rest := by simp
        rw [hsplit, divide_cons B hB (acc ++ [f]) rest h1, List.map_cons]
      · rw [preprocessFromCapAux, if_neg h1]
        have h2 : (acc ++ [f]).length < B := by
          rw [List.length_append] at h1 ⊢
          simp only [List.length_cons, List.length_nil] at h1 ⊢
          omega
        have hrec := ih (acc ++ [f]) h2
        rw [hmap, hrec]
        have hsplit : (acc ++ [f]) ++ rest = acc ++ f :: rest := by simp
        rw [hsplit]

theorem preprocess_from_cap_eq (pre : α → β) (B : Nat) (hB : 0 < B) (source : List α) :
    preprocess_from_cap pre B source =
      (divide_list_to_batches source B).map (fun b => (b, b.map pre)) := by
  have h := preprocessFromCapAux_eq pre B source [] hB
  rw [List.nil_append] at h
  exact h

theorem preprocess_images_eq (pre : α → β) (images : List α) (B : Nat) :
    preprocess_images pre images B =
      (divide_list_to_batches images B).map (fun b => (b, b.map pre)) := by
  unfold preprocess_images
  apply List.map_congr_left
  intro b _
  rw [List.map_id']

theorem PipeStep.trace_eq {inferF : List β → ρ} {renderF : List α → ρ → δ}
    {s t : PipeState α β ρ δ} (h : PipeStep inferF renderF s t) :
    t.trace inferF renderF = s.trace inferF renderF := by
  cases h with
  | enqueue b rest hp =>
      simp [PipeState.trace, hp, List.map_append, List.append_assoc]
  | dispatch b rest hq =>
      simp [PipeState.trace, hq, List.map_append, List.append_assoc]
  | consume r rest hq =>
      simp [PipeState.trace, hq, List.map_append, List.append_assoc]

theorem reachable_trace_eq {inferF : List β → ρ} {renderF : List α → ρ → δ}
    {batches : List (List α × List β)} {s : PipeState α β ρ δ}
    (h : Relation.ReflTransGen (PipeStep inferF renderF) (PipeState.init batches) s) :
    s.trace inferF renderF = batches.map (fun b => renderF b.1 (inferF b.2)) := by
  induction h with
  | refl => simp [PipeState.init, PipeState.trace]
  | tail _ hstep ih => rw [PipeStep.trace_eq hstep, ih]

theorem reachable_rendered_get {inferF : List β → ρ} {renderF : List α → ρ → δ}
    {batches : List (List α × List β)} {s : PipeState α β ρ δ}
    (h : Relation.ReflTransGen (PipeStep inferF renderF) (PipeState.init batches) s)
    (k : Nat) (hk : k < s.rendered.length) :
    s.rendered[k]? = (batches.map (fun b => renderF b.1 (inferF b.2)))[k]? := by
  have ht := reachable_trace_eq h
  rw [← ht]
  unfold PipeState.trace
  rw [List.getElem?_append_left, List.getElem?_append_left, List.getElem?_append_left hk]
  · rw [List.length_append]; omega
  · rw [List.length_append, List.length_append]; omega

/-! ## Claim theorems -/

/-- C1: in every pipeline run over a finite frame sequence, the k-th item rendered by the
Postprocessor corresponds to the k-th batch pushed by the Batcher/Preprocessor — for every
state reachable by any interleaving of the three stages, the k-th rendered frame is
`renderF` of the k-th enqueued batch and of the inference output on that same batch's
preprocessed data; moreover every enqueued batch carries exactly its own frames'
preprocessed tensors (`b.2 = b.1.map pre`).  No stage reorders batches between enqueue
and render. -/
theorem C1_fifo_order_preserved (α β ρ δ : Type) (pre : α → β) (inferF : List β → ρ)
    (renderF : List α → ρ → δ) (B : Nat) (hB : 0 < B) (source : List α)
    (s : PipeState α β ρ δ)
    (hreach : Relation.ReflTransGen (PipeStep inferF renderF)
      (PipeState.init (preprocess_from_cap pre B source)) s)
    (k : Nat) (hk : k < s.rendered.length) :
    s.rendered[k]? = ((preprocess_from_cap pre B source).map
      (fun b => renderF b.1 (inferF b.2)))[k]? ∧
    ∀ b ∈ preprocess_from_cap pre B source, b.2 = b.1.map pre := by
  refine ⟨reachable_rendered_get hreach k hk, ?_⟩
  intro b hb
  rw [preprocess_from_cap_eq pre B hB source] at hb
  simp only [List.mem_map] at hb
  obtain ⟨c, _, rfl⟩ := hb
  rfl

/-- C1 witness: a concrete 1-batch run, stepped through all three stages. -/
theorem C1_fifo_order_preserved_witness :
    ((0 < 1) ∧
      (((⟨[], [], [], [7]⟩ : PipeState Nat Nat Nat Nat).rendered[0]? =
        ((preprocess_from_cap (fun n => n + 1) 1 [5]).map
          (fun b => b.2.sum + b.1.length))[0]?) ∧
       ∀ b ∈ preprocess_from_cap (fun n => n + 1) 1 [5], b.2 = b.1.map (fun n => n + 1))) := by
  have step1 : PipeStep (fun l : List Nat => l.sum) (fun (o : List Nat) (r : Nat) => r + o.length)
      (PipeState.init (preprocess_from_cap (fun n => n + 1) 1 [5]))
      ⟨[], [([5], [6])], [], []⟩ :=
    PipeStep.enqueue _ ([5], [6]) [] rfl
  have step2 : PipeStep (fun l : List Nat => l.sum) (fun (o : List Nat) (r : Nat) => r + o.length)
      (⟨[], [([5], [6])], [], []⟩ : PipeState Nat Nat Nat Nat)
      ⟨[], [], [([5], 6)], []⟩ :=
    PipeStep.dispatch _ ([5], [6]) [] rfl
  have step3 : PipeStep (fun l : List Nat => l.sum) (fun (o : List Nat) (r : Nat) => r + o.length)
      (⟨[], [], [([5], 6)], []⟩ : PipeState Nat Nat Nat Nat)
      ⟨[], [], [], [7]⟩ :=
    PipeStep.consume _ ([5], 6) [] rfl
  have hreach : Relation.ReflTransGen
      (PipeStep (fun l : List Nat => l.sum) (fun (o : List Nat) (r : Nat) => r + o.length))
      (PipeState.init (preprocess_from_cap (fun n => n + 1) 1 [5])) ⟨[], [], [], [7]⟩ :=
    Relation.ReflTransGen.head step1 (Relation.ReflTransGen.head step2
      (Relation.ReflTransGen.head step3 Relation.ReflTransGen.refl))
  exact ⟨by decide, C1_fifo_order_preserved Nat Nat Nat Nat (fun n => n + 1)
    (fun l => l.sum) (fun o r => r + o.length) 1 (by decide) [5] ⟨[], [], [], [7]⟩
    hreach 0 (by decide)⟩

/-- C2: for every finite frame source of length N and positive batch size B, the
Batcher/Preprocessor enqueues exactly `N / B` batches of exactly `B` frames each (on both
the capture path and the image-list path), and the frames enqueued are exactly the first
`B * (N / B)` frames of the source in order — the trailing `N mod B` frames are never
enqueued. -/
theorem C2_floor_batches_trailing_dropped (α β : Type) (pre : α → β) (B : Nat)
    (hB : 0 < B) (source images : List α) :
    (preprocess_from_cap pre B source).length = source.length / B ∧
    (∀ b ∈ preprocess_from_cap pre B source, b.1.length = B ∧ b.2.length = B) ∧
    ((preprocess_from_cap pre B source).map Prod.fst).flatten
      = source.take (B * (source.length / B)) ∧
    (preprocess_images pre images B).length = images.length / B ∧
    (∀ b ∈ preprocess_images pre images B, b.1.length = B ∧ b.2.length = B) ∧
    ((preprocess_images pre images B).map Prod.fst).flatten
      = images.take (B * (images.length / B)) := by
  rw [preprocess_from_cap_eq pre B hB source, preprocess_images_eq pre images B]
  refine ⟨?_, ?_, ?_, ?_, ?_, ?_⟩
  · rw [List.length_map, divide_length]
  · intro b hb
    simp only [List.mem_map] at hb
    obtain ⟨c, hc, rfl⟩ := hb
    have := divide_mem_length B source c hc
    exact ⟨this, by rw [List.length_map, this]⟩
  · rw [List.map_map]
    have : ((fun b : List α × List β => b.1) ∘ fun b : List α => (b, b.map pre))
        = fun b : List α => b := rfl
    rw [this, List.map_id', divide_flatten]
  · rw [List.length_map, divide_length]
  · intro b hb
    simp only [List.mem_map] at hb
    obtain ⟨c, hc, rfl⟩ := hb
    have := divide_mem_length B images c hc
    exact ⟨this, by rw [List.length_map, this]⟩
  · rw [List.map_map]
    have : ((fun b : List α × List β => b.1) ∘ fun b : List α => (b, b.map pre))
        = fun b : List α => b := rfl
    rw [this, List.map_id', divide_flatten]

/-- C2 witness: N = 10 frames, B = 4 — two full batches, the trailing two frames
dropped, on both paths. -/
theorem C2_floor_batches_trailing_dropped_witness :
    (0 < 4) ∧
    ((preprocess_from_cap (fun n => n + 1) 4 (List.range 10)).length
        = (List.range 10).length / 4 ∧
     (∀ b ∈ preprocess_from_cap (fun n => n + 1) 4 (List.range 10),
        b.1.length = 4 ∧ b.2.length = 4) ∧
     ((preprocess_from_cap (fun n => n + 1) 4 (List.range 10)).map Prod.fst).flatten
        = (List.range 10).take (4 * ((List.range 10).length / 4)) ∧
     (preprocess_images (fun n => n + 1) (List.range 10) 4).length
        = (List.range 10).length / 4 ∧
     (∀ b ∈ preprocess_images (fun n => n + 1) (List.range 10) 4,
        b.1.length = 4 ∧ b.2.length = 4) ∧
     ((preprocess_images (fun n => n + 1) (List.range 10) 4).map Prod.fst).flatten
        = (List.range 10).take (4 * ((List.range 10).length / 4))) :=
  ⟨by decide, C2_floor_batches_trailing_dropped Nat Nat (fun n => n + 1) 4 (by decide)
    (List.range 10) (List.range 10)⟩

theorem PyQueue.putN_qsize (q : PyQueue σ) (x : σ) (n : Nat) :
    (q.putN x n).qsize = q.qsize + n := by
  induction n with
  | zero => rfl
  | succ n ih =>
      show ((q.putN x n).put x).qsize = q.qsize + (n + 1)
      unfold PyQueue.put PyQueue.qsize at *
      rw [List.length_append]
      simp only [List.length_cons, List.length_nil]
      omega

theorem PyQueue.putN_maxsize (q : PyQueue σ) (x : σ) (n : Nat) :
    (q.putN x n).maxsize = q.maxsize := by
  induction n with
  | zero => rfl
  | succ n ih =>
      show ((q.putN x n).put x).maxsize = q.maxsize
      unfold PyQueue.put
      exact ih

/-- C3 counterexample: the queues `infer` builds the pipeline on are created with the
default `maxsize = 0`, which CPython treats as infinite capacity — after 11 producer puts
with no consumer the input queue holds 11 items (more than the only configured capacity
in the sources, the Flask queue's 10), the put does not block, and no constant bounds the
queue's size over all runs: the pipeline queues are not bounded. -/
theorem C3_counterexample :
    (pipelineInputQueue Nat).maxsize = 0 ∧
    ((pipelineInputQueue Nat).putN 0 11).qsize = 11 ∧
    10 < ((pipelineInputQueue Nat).putN 0 11).qsize ∧
    ¬ ((pipelineInputQueue Nat).putN 0 11).putBlocks ∧
    ¬ (∃ c : Nat, ∀ n : Nat, ((pipelineInputQueue Nat).putN 0 n).qsize ≤ c) := by
  refine ⟨rfl, by decide, by decide, ?_, ?_⟩
  · rintro ⟨h, -⟩
    rw [PyQueue.putN_maxsize] at h
    exact absurd h (by decide)
  · rintro ⟨c, hc⟩
    have h := hc (c + 1)
    rw [PyQueue.putN_qsize] at h
    have hq : (pipelineInputQueue Nat).qsize = 0 := rfl
    omega

/-- C3 amended: the pipeline's input and output queues are created with `maxsize = 0`,
i.e. unbounded — a put never blocks and never drops or raises: after n puts the queue
holds exactly n items, for every n.  The only queue with a positive configured capacity
in the sources is the module-level Flask streaming queue (`maxsize = 10`), which the
pipeline does not use. -/
theorem C3_pipeline_queues_unbounded (σ : Type) (x : σ) (n : Nat) :
    ((pipelineInputQueue σ).putN x n).qsize = n ∧
    ¬ ((pipelineInputQueue σ).putN x n).putBlocks ∧
    ((pipelineOutputQueue σ).putN x n).qsize = n ∧
    ¬ ((pipelineOutputQueue σ).putN x n).putBlocks ∧
    (flaskModuleQueue σ).maxsize = 10 := by
  refine ⟨?_, ?_, ?_, ?_, rfl⟩
  · rw [PyQueue.putN_qsize]
    show 0 + n = n
    omega
  · rintro ⟨h, -⟩
    rw [PyQueue.putN_maxsize] at h
    have h0 : (pipelineInputQueue σ).maxsize = 0 := rfl
    rw [h0] at h
    exact absurd h (by decide)
  · rw [PyQueue.putN_qsize]
    show 0 + n = n
    omega
  · rintro ⟨h, -⟩
    rw [PyQueue.putN_maxsize] at h
    have h0 : (pipelineOutputQueue σ).maxsize = 0 := rfl
    rw [h0] at h
    exact absurd h (by decide)

theorem sentinelCount_map_some (l : List σ) :
    sentinelCount (l.map some ++ [none]) = 1 := by
  unfold sentinelCount
  rw [List.countP_append, List.countP_map]
  have h1 : List.countP ((fun x : Option σ => x.isNone) ∘ some) l = 0 := by
    rw [List.countP_eq_zero]
    intro a _
    simp
  rw [h1]
  simp

theorem consumedItems_map_some (l : List σ) (rest : List (Option σ)) :
    consumedItems (l.map some ++ none :: rest) = l := by
  induction l with
  | nil => rfl
  | cons x xs ih => simp only [List.map_cons, List.cons_append, consumedItems, ih,
      List.append_eq]

theorem reachesSentinel_map_some (l : List σ) (rest : List (Option σ)) :
    reachesSentinel (l.map some ++ none :: rest) = true := by
  induction l with
  | nil => rfl
  | cons x xs ih => simp only [List.map_cons, List.cons_append, reachesSentinel, ih,
      List.append_eq]

/-- C4 counterexample: the claim asserts both that the engine's `run()` pushes its own
Sentinel onto the output queue after consuming the input Sentinel, and that exactly one
Sentinel reaches each downstream stage.  But `infer` itself executes
`output_queue.put(None)` after `run()` returns (client_object_detection.py line 260,
object_detection_mod.py line 263) — so if `run()` pushed one as claimed, a run with
`N = 0` valid frames would deliver two Sentinels to the Postprocessor's queue, not
exactly one. -/
theorem C4_counterexample :
    inferOutputTrace (fun b : Nat => b) true [] = [none, none] ∧
    sentinelCount (inferOutputTrace (fun b : Nat => b) true []) = 2 := by
  constructor <;> rfl

/-- C4 amended: the Preprocessor pushes the Sentinel onto the input queue exactly once
after the source is exhausted; the engine's `run()` consumes the input queue up to that
Sentinel and returns WITHOUT pushing one; the single output-queue Sentinel is pushed by
`infer` itself after `run()` returns and the preprocess thread is joined.  With that
orchestration exactly one Sentinel reaches each downstream stage, the Postprocessor
consumes exactly the delivered results, and both consumer loops reach their Sentinel
(terminate) — also for `N = 0` batches. -/
theorem C4_exactly_one_sentinel (σ ρ : Type) (inferF : σ → ρ) (batches : List σ) :
    sentinelCount (preprocessTrace batches) = 1 ∧
    sentinelCount (inferOutputTrace inferF false batches) = 1 ∧
    consumedItems (inferOutputTrace inferF false batches)
      = engineConsume inferF (preprocessTrace batches) ∧
    reachesSentinel (preprocessTrace batches) = true ∧
    reachesSentinel (inferOutputTrace inferF false batches) = true ∧
    inferOutputTrace inferF false ([] : List σ) = [none] := by
  have htrace : inferOutputTrace inferF false batches
      = (engineConsume inferF (preprocessTrace batches)).map some ++ none :: [] := by
    unfold inferOutputTrace runOutputs
    simp
  refine ⟨?_, ?_, ?_, ?_, ?_, rfl⟩
  · exact sentinelCount_map_some batches
  · rw [htrace]
    exact sentinelCount_map_some _
  · rw [htrace]
    exact consumedItems_map_some _ _
  · unfold preprocessTrace
    exact reachesSentinel_map_some batches []
  · rw [htrace]
    exact reachesSentinel_map_some _ _

/-- C5 counterexample: an output-queue item whose relay send raises terminates the client
consumer loop at once: nothing is logged, the `OSError` escapes (killing the thread), no
datagram is sent, and the following healthy item (and the Sentinel behind it) is never
consumed — the loop does not continue with the next item. -/
theorem C5_counterexample :
    clientPostprocessLoop
        [some ⟨false, true, true, 1⟩, some ⟨false, true, false, 2⟩, none]
      = ⟨[], [], some ("OSError")⟩ ∧
    (clientPostprocessLoop
        [some ⟨false, true, true, 1⟩, some ⟨false, true, false, 2⟩, none]).sent = [] ∧
    (clientPostprocessLoop
        [some ⟨false, true, true, 1⟩, some ⟨false, true, false, 2⟩, none]).logs = [] := by
  exact ⟨rfl, rfl, rfl⟩

/-- C5 amended: the client consumer loop body (imencode / pickle / sendto) runs with no
per-item exception handling and no logging: for any trace whose first i items are healthy
and whose item i raises (in encode or send), the loop sends exactly the first i payloads,
logs nothing, and terminates with the exception escaping uncaught — every later item is
left unconsumed.  (An encode failure signalled only through the unused `ret` flag is not
an exception: the empty buffer is pickled and sent like any healthy item.) -/
theorem C5_uncaught_exception_kills_loop (healthy : List RelayItem) (bad : RelayItem)
    (rest : List (Option RelayItem))
    (hok : ∀ it ∈ healthy, it.encodeRaises = false ∧ it.sendRaises = false)
    (hbad : bad.encodeRaises = true ∨ bad.sendRaises = true) :
    clientPostprocessLoop (healthy.map some ++ some bad :: rest) =
      ⟨healthy.map (fun it => it.payload), [],
        some (if bad.encodeRaises then "cv2.error" else "OSError")⟩ := by
  induction healthy with
  | nil =>
      rcases hbe : bad.encodeRaises with - | -
      · have hs : bad.sendRaises = true := by
          rcases hbad with h | h
          · rw [hbe] at h; exact absurd h (by decide)
          · exact h
        simp [clientPostprocessLoop, relayBody, hbe, hs]
      · simp [clientPostprocessLoop, relayBody, hbe]
  | cons it its ih =>
      have hit := hok it (List.mem_cons_self it its)
      have hits : ∀ x ∈ its, x.encodeRaises = false ∧ x.sendRaises = false :=
        fun x hx => hok x (List.mem_cons_of_mem it hx)
      simp [clientPostprocessLoop, relayBody, hit.1, hit.2, ih hits]

/-- C5 witness: one healthy item (payload 5 sent), then a raising send. -/
theorem C5_uncaught_exception_kills_loop_witness :
    ((∀ it ∈ [(⟨false, true, false, 5⟩ : RelayItem)],
        it.encodeRaises = false ∧ it.sendRaises = false) ∧
      ((⟨false, true, true, 1⟩ : RelayItem).encodeRaises = true ∨
        (⟨false, true, true, 1⟩ : RelayItem).sendRaises = true)) ∧
    clientPostprocessLoop
        ([(⟨false, true, false, 5⟩ : RelayItem)].map some ++
          some ⟨false, true, true, 1⟩ :: [none]) =
      ⟨[(⟨false, true, false, 5⟩ : RelayItem)].map (fun it => it.payload), [],
        some (if (⟨false, true, true, 1⟩ : RelayItem).encodeRaises
          then "cv2.error" else "OSError")⟩ :=
  ⟨⟨by decide, Or.inr rfl⟩,
    C5_uncaught_exception_kills_loop [⟨false, true, false, 5⟩] ⟨false, true, true, 1⟩
      [none] (by decide) (Or.inr rfl)⟩

/-- C6 counterexample: a datagram whose payload fails to deserialize makes
`receive_frames` print the error and `break` — the loop exits, and a following healthy
datagram is never decoded into the shared frame; the claim that the loop continues with
subsequent datagrams is false.  Moreover no receive timeout is configured at all. -/
theorem C6_counterexample :
    receive_frames [RelayDatagram.bad ("pickle.UnpicklingError"), RelayDatagram.ok 7]
      = ([], ["Error receiving frame: pickle.UnpicklingError"], true) ∧
    serverSocketTimeout = none := by
  exact ⟨rfl, rfl⟩

/-- C6 amended: a datagram whose payload fails to deserialize or decode is logged and the
receive loop EXITS (`break`), leaving all subsequent datagrams unprocessed; only an
all-healthy arrival sequence keeps the loop alive, writing each frame in order; and the
receiver socket has no receive timeout configured — `recvfrom` blocks indefinitely, so no
timeout poll cycle exists. -/
theorem C6_receive_loop_breaks_on_error (good : List Nat) (e : String)
    (rest : List (RelayDatagram Nat)) :
    receive_frames (good.map RelayDatagram.ok ++ RelayDatagram.bad e :: rest)
      = (good, ["Error receiving frame: " ++ e], true) ∧
    receive_frames (good.map RelayDatagram.ok) = (good, [], false) ∧
    serverSocketTimeout = none := by
  refine ⟨?_, ?_, rfl⟩
  · induction good with
    | nil => rfl
    | cons x xs ih =>
        simp only [List.map_cons, List.cons_append, receive_frames, ih, List.append_eq]
  · induction good with
    | nil => rfl
    | cons x xs ih =>
        simp only [List.map_cons, receive_frames, ih]

theorem fpsValuesAux_length (ts : List ℚ) :
    ∀ prev, (fpsValuesAux prev ts).length = ts.length := by
  induction ts with
  | nil => intro prev; rfl
  | cons t rest ih =>
      intro prev
      simp only [fpsValuesAux, List.length_cons, ih]

/-- C7 counterexample: with the first batch consumed at wall-clock time 10 s and the
second half a second later, the loop reports an FPS value for the FIRST batch too —
`1/(10 - 0) = 1/10`, computed against the initial seed `prev_time = 0` and rendered as
`FPS: 0` — rather than skipping it; and the same delta pattern started at time 2 reports
`1/2` for its first sample, so the first value is seed-relative, not clamped to anything.
-/
theorem C7_counterexample :
    fpsValues [10, 21/2] = [1/10, 2] ∧
    (fpsValues [10, 21/2]).length = 2 ∧
    fpsValues [2, 5/2] = [1/2, 2] ∧
    (fpsValues [10, 21/2])[0]? ≠ (fpsValues [2, 5/2])[0]? ∧
    fpsDisplayed [10, 21/2] = [0, 2] := by
  refine ⟨?_, ?_, ?_, ?_, ?_⟩ <;>
    norm_num [fpsValues, fpsValuesAux, fpsDisplayed, Int.floor_eq_iff]

/-- C7 amended: the Postprocessor computes instantaneous FPS for each consumed batch as
the reciprocal of the wall-clock delta to the previous completed batch, with `prev_time`
seeded to 0 — and the first sample is neither skipped nor clamped: one FPS value is
produced per consumed batch, the first being `1/(t0 - 0)`, the reciprocal of the raw
epoch timestamp of the first batch. -/
theorem C7_fps_first_sample_from_seed (times : List ℚ) (t0 prev t1 t2 : ℚ) :
    (fpsValues times).length = times.length ∧
    fpsValues (t0 :: times) = (t0 - 0)⁻¹ :: fpsValuesAux t0 times ∧
    fpsValuesAux prev (t1 :: t2 :: times) =
      (t1 - prev)⁻¹ :: (t2 - t1)⁻¹ :: fpsValuesAux t2 times :=
  ⟨fpsValuesAux_length times 0, rfl, rfl⟩

theorem diskWrites_eq (render : φ → ρ → φ) (results : List (φ × ρ)) :
    ∀ i, diskWrites render (results.map some ++ [none]) i =
      (List.enumFrom i results).map
        (fun p => ("output_" ++ toString p.1 ++ ".png", render p.2.1 p.2.2)) := by
  induction results with
  | nil => intro i; rfl
  | cons r rest ih =>
      obtain ⟨frame, res⟩ := r
      intro i
      simp only [List.map_cons, List.cons_append, diskWrites, List.enumFrom,
        if_neg (by decide : ¬ pyAnd255 headlessWaitKey = ordQ), ih (i + 1),
        List.append_eq]

/-- C8: in disk-sink mode the k-th result consumed from the output queue is written to
`output_k.png` — the counter starts at 0, increments once per result, with no padding
(`enumFrom 0`); in particular an end-to-end run over 3 input images at `batch_size = 1`
writes exactly `output_0.png`, `output_1.png`, `output_2.png`, in order, each the
rendering of its own frame's inference result, and the normal-completion outcome of
`main` is exit status 0 with no uncaught exception. -/
theorem C8_disk_outputs_numbered_from_zero (φ ρ α β : Type) (render : φ → ρ → φ)
    (render2 : List α → ρ → List α) (results : List (φ × ρ)) (pre : α → β)
    (inferF : List β → ρ) (i0 i1 i2 : α) (net inp lab : String) (s : Bool) :
    mod_postprocess_disk render results =
      (List.enumFrom 0 results).map
        (fun p => ("output_" ++ toString p.1 ++ ".png", render p.2.1 p.2.2)) ∧
    (mod_run pre inferF render2 [i0, i1, i2] ⟨net, inp, 1, lab, s⟩).map Prod.fst =
      ["output_0.png", "output_1.png", "output_2.png"] ∧
    mod_run pre inferF render2 [i0, i1, i2] ⟨net, inp, 1, lab, s⟩ =
      [("output_0.png", render2 [i0] (inferF [pre i0])),
       ("output_1.png", render2 [i1] (inferF [pre i1])),
       ("output_2.png", render2 [i2] (inferF [pre i2]))] ∧
    (mod_main none).exitCode = 0 ∧ (mod_main none).uncaught = none := by
  have hres : (preprocess_images pre [i0, i1, i2] 1).map (fun b => (b.1, inferF b.2))
      = [([i0], inferF [pre i0]), ([i1], inferF [pre i1]), ([i2], inferF [pre i2])] := by
    simp [preprocess_images, divide_list_to_batches, Nat.div_one, List.range_succ,
      List.range_zero]
  have h3 : mod_run pre inferF render2 [i0, i1, i2] ⟨net, inp, 1, lab, s⟩ =
      [("output_0.png", render2 [i0] (inferF [pre i0])),
       ("output_1.png", render2 [i1] (inferF [pre i1])),
       ("output_2.png", render2 [i2] (inferF [pre i2]))] := by
    show mod_postprocess_disk render2
        ((preprocess_images pre [i0, i1, i2] 1).map (fun b => (b.1, inferF b.2))) = _
    rw [hres]
    refine (diskWrites_eq render2 _ 0).trans ?_
    simp [List.enumFrom]
    exact ⟨rfl, rfl, rfl⟩
  refine ⟨diskWrites_eq render results 0, ?_, h3, rfl, rfl⟩
  rw [h3]
  rfl

/-- C9 counterexample: a user interrupt during a client_object_detection.py run escapes
`main` uncaught (there is no try/except in that entry point): the process exits with the
nonzero status of an unhandled exception and no cleanup (window destruction, capture
release) runs on the way out — the claim fails for this pipeline entry point. -/
theorem C9_counterexample :
    client_main (some PyExn.keyboardInterrupt)
      = ⟨1, false, some PyExn.keyboardInterrupt⟩ ∧
    (client_main (some PyExn.keyboardInterrupt)).exitCode ≠ 0 ∧
    (client_main (some PyExn.keyboardInterrupt)).windowsDestroyed = false :=
  ⟨rfl, by decide, rfl⟩

/-- C9 amended: only object_detection_mod.py performs the claimed interrupt handling —
its `main` catches `KeyboardInterrupt`, destroys the windows and exits 0;
client_object_detection.py's `main` has no handler, so the interrupt escapes uncaught
with no cleanup and a nonzero exit status. -/
theorem C9_interrupt_handled_in_mod_only :
    mod_main (some PyExn.keyboardInterrupt) = ⟨0, true, none⟩ ∧
    mod_main none = ⟨0, true, none⟩ ∧
    client_main none = ⟨0, false, none⟩ ∧
    client_main (some PyExn.keyboardInterrupt)
      = ⟨1, false, some PyExn.keyboardInterrupt⟩ :=
  ⟨rfl, rfl, rfl, rfl⟩

/-- C10: two runs identical in all inputs except the `save_stream_output` flag have
identical observable behavior.  In object_detection_mod.py the flag is parsed and
threaded through `infer` into `postprocess`, whose body never reads it, so the whole
disk-mode run is unchanged; in client_object_detection.py `main` does not even pass the
parsed flag to `infer`, so the run is a function of the other four arguments only. -/
theorem C10_save_stream_output_noninterference (α β ρ φ : Type) (pre : α → β)
    (inferF : List β → ρ) (render : List α → ρ → List α) (render2 : φ → ρ → φ)
    (images : List α) (results : List (φ × ρ)) (net inp lab : String) (B : Nat)
    (b1 b2 : Bool) :
    mod_postprocess b1 render2 results = mod_postprocess b2 render2 results ∧
    mod_run pre inferF render images ⟨net, inp, B, lab, b1⟩ =
      mod_run pre inferF render images ⟨net, inp, B, lab, b2⟩ ∧
    client_main_call ⟨net, inp, B, lab, b1⟩ = client_main_call ⟨net, inp, B, lab, b2⟩ :=
  ⟨rfl, rfl, rfl⟩

end HailoWeb
